import Mathlib

/-!
Verification of the storage core of the Movie-Project-OOP repository.

The repository is a small Python movie-collection manager.  Its core is a
key-value record store persisted to a file:

* `src/storage/storage_json.py` and `src/storage_json.py` — two near-identical
  JSON-backed implementations (`StorageJson`); their method bodies
  (`_read_movies`, `_write_movies`, `list_movies`, `add_movie`,
  `delete_movie`, `update_movie`) are line-for-line the same, the only
  behavioural difference is in the constructor (`__init__`): the
  `storage/` version bootstraps a missing backing file with an empty JSON
  document, the top-level version stores the path and writes nothing.
* `src/storage_csv.py` — a CSV-backed implementation (`StorageCsv`).
* `src/movie_app.py` — the presentation layer; of interest here is the
  `update_movie` flow that strips and truncates free-text notes to 100
  characters before calling the store.

Modelling decisions (a shallow embedding):

* Python `dict`s are insertion-ordered association lists.  `d[k] = v`
  replaces the value in place when `k` is present and appends otherwise;
  `del d[k]` removes the entry; `d1.update(d2)` assigns every pair of `d2`
  into `d1` in order.  These are `dset`, `ddel`, `dmerge` below.
* Scalar Python values (the fields of a movie record) are `PyVal`:
  strings, ints, and floats.  Floats are modelled as exact rationals,
  the standard idealisation; no arithmetic is performed on them by the
  storage code, they are only stored, compared and (for CSV) printed and
  re-parsed as decimal literals.
* The JSON backing file is modelled by its parse status: `missing` (no
  file at the path), `invalid raw` (a file whose content `json.load`
  rejects), or `doc m` (a file holding a JSON document that parses to the
  mapping `m`).  `json.dump(m, file, indent=4)` writes a document that
  `json.load` parses back to an equal object, so `_write_movies m`
  produces `doc m`; the claims about the JSON store quantify over
  semantic file content, never over byte formatting.
* The CSV backing file keeps its textual structure: a header row and data
  rows of string cells, exactly what `csv.DictWriter`/`csv.DictReader`
  exchange.  Numeric cells are genuinely rendered to and parsed from
  decimal strings (`pyStr`, `parseFloat?`, `parseInt?` below).
* Python exceptions are the `Except` monad; the store raises `ValueError`
  (the spec's `NotFoundError` kind) and the CSV reader can raise
  `KeyError` (missing column) or `ValueError` (failed `float`/`int`).
  An operation that raises before reaching its write leaves the backing
  file unchanged, so the fallible operations return the (unchanged) file
  alongside the error.
-/

/-- A scalar Python value as stored in a movie record: a string, an int, or
a float (modelled as an exact rational). -/
inductive PyVal where
  | vStr (s : String)
  | vInt (n : Int)
  | vFloat (q : ℚ)
deriving DecidableEq, Repr

/-- A movie record: a Python dict from field name to scalar value,
modelled as an insertion-ordered association list. -/
abbrev Record := List (String × PyVal)

/-- The store's mapping from title to movie record. -/
abbrev Movies := List (String × Record)

/-- The kind of Python exception raised by the storage code.
`valueError` is what `delete_movie`/`update_movie` raise on a missing
title (the spec's `NotFoundError` kind) and what `float()`/`int()` raise
on an unparseable literal; `keyError k` is a failed dict indexing. -/
inductive PyErr where
  | valueError
  | keyError (k : String)
deriving DecidableEq, Repr

deriving instance DecidableEq for Except

/-- Python dict lookup `d.get(k)` / `d[k]` on an association list:
the value at the first matching key. -/
def dget {α : Type} : List (String × α) → String → Option α
  | [], _ => none
  | (k', v) :: tl, k => if k' = k then some v else dget tl k

/-- Python membership test `k in d`. -/
def dmem {α : Type} (m : List (String × α)) (k : String) : Bool :=
  (dget m k).isSome

/-- Python dict assignment `d[k] = v`: replaces the value in place when the
key is present, appends the pair otherwise. -/
def dset {α : Type} : List (String × α) → String → α → List (String × α)
  | [], k, v => [(k, v)]
  | (k', v') :: tl, k, v =>
      if k' = k then (k', v) :: tl else (k', v') :: dset tl k v

/-- Python dict deletion `del d[k]` (on dicts with unique keys, removing
every entry with key `k` coincides with removing the single one). -/
def ddel {α : Type} : List (String × α) → String → List (String × α)
  | [], _ => []
  | (k', v') :: tl, k =>
      if k' = k then ddel tl k else (k', v') :: ddel tl k

/-- Replace the value at key `k` by `g` of it, keeping its position; models
the in-place mutation `d[k].update(...)` of the record stored at `k`. -/
def dmodify {α : Type} : List (String × α) → String → (α → α) → List (String × α)
  | [], _, _ => []
  | (k', v') :: tl, k, g =>
      if k' = k then (k', g v') :: dmodify tl k g
      else (k', v') :: dmodify tl k g

/-- Python `d1.update(d2)`: assign every key-value pair of `d2` into `d1`,
in order. -/
def dmerge {α : Type} (r : List (String × α)) (d : List (String × α)) :
    List (String × α) :=
  d.foldl (fun acc p => dset acc p.1 p.2) r

/-- The JSON backing file, by parse status: absent, present but not valid
JSON, or a JSON document parsing to the mapping `m`. -/
inductive JFile where
  | missing
  | invalid (raw : String)
  | doc (m : Movies)
deriving DecidableEq

namespace StorageJson

/-- `StorageJson._read_movies`: `json.load` the file; a missing file
(`FileNotFoundError`) or unparseable content (`json.JSONDecodeError`) both
yield an empty dict. -/
def read_movies : JFile → Movies
  | .missing => []
  | .invalid _ => []
  | .doc m => m

/-- `StorageJson._write_movies`: `json.dump(movies, file, indent=4)`
replaces the whole file with a document for `movies`. -/
def write_movies (movies : Movies) : JFile :=
  .doc movies

/-- `StorageJson.list_movies`: returns `_read_movies()`. -/
def list_movies (f : JFile) : Movies :=
  read_movies f

/-- `StorageJson.add_movie`: `movies = list_movies(); movies[title] = details;
_write_movies(movies)`. -/
def add_movie (f : JFile) (title : String) (details : Record) : JFile :=
  write_movies (dset (list_movies f) title details)

/-- `StorageJson.delete_movie`: read, raise `ValueError` if the title is
absent (no write happens), else `del movies[title]` and write.  Returns the
outcome together with the resulting backing file. -/
def delete_movie (f : JFile) (title : String) : Except PyErr Unit × JFile :=
  let movies := read_movies f
  if dmem movies title then
    (.ok (), write_movies (ddel movies title))
  else
    (.error .valueError, f)

/-- `StorageJson.update_movie`: read, raise `ValueError` if the title is
absent (no write happens), else `movies[title].update(details)` and write. -/
def update_movie (f : JFile) (title : String) (details : Record) :
    Except PyErr Unit × JFile :=
  let movies := read_movies f
  if dmem movies title then
    (.ok (), write_movies (dmodify movies title (fun r => dmerge r details)))
  else
    (.error .valueError, f)

/-- `StorageJson.__init__` of `src/storage/storage_json.py`: when no file
exists at the configured path, immediately `json.dump({}, file, indent=4)`;
an existing file (valid or not) is left untouched. -/
def construct : JFile → JFile
  | .missing => .doc []
  | f => f

end StorageJson

namespace StorageJsonTop

/-- `StorageJson.__init__` of the top-level `src/storage_json.py`: it only
records the path and never touches the file system. -/
def construct (f : JFile) : JFile :=
  f

end StorageJsonTop

/-- Reading back a just-written JSON document recovers the mapping. -/
theorem StorageJson.read_write (m : Movies) :
    StorageJson.read_movies (StorageJson.write_movies m) = m :=
  rfl

section DictLemmas

variable {α : Type}

theorem dget_dset_self (m : List (String × α)) (k : String) (v : α) :
    dget (dset m k v) k = some v := by
  induction m with
  | nil => simp [dget, dset]
  | cons p tl ih =>
      obtain ⟨a, b⟩ := p
      by_cases h : a = k
      · simp [dset, dget, h]
      · simp [dset, dget, h, ih]

theorem dget_dset_ne (m : List (String × α)) {k k' : String} (v : α)
    (h : k' ≠ k) : dget (dset m k v) k' = dget m k' := by
  have hk : ¬ k = k' := fun hh => h hh.symm
  induction m with
  | nil => simp [dget, dset, hk]
  | cons p tl ih =>
      obtain ⟨a, b⟩ := p
      by_cases hp : a = k
      · subst hp
        simp [dset, dget, hk]
      · by_cases hp' : a = k'
        · simp [dset, dget, hp, hp', hk, h]
        · simp [dset, dget, hp, hp', ih]

theorem dget_ddel_self (m : List (String × α)) (k : String) :
    dget (ddel m k) k = none := by
  induction m with
  | nil => simp [ddel, dget]
  | cons p tl ih =>
      obtain ⟨a, b⟩ := p
      by_cases h : a = k
      · simpa [ddel, h] using ih
      · simp [ddel, dget, h, ih]

theorem dget_ddel_ne (m : List (String × α)) {k k' : String}
    (h : k' ≠ k) : dget (ddel m k) k' = dget m k' := by
  have hk : ¬ k = k' := fun hh => h hh.symm
  induction m with
  | nil => simp [ddel, dget]
  | cons p tl ih =>
      obtain ⟨a, b⟩ := p
      by_cases hp : a = k
      · have hp' : ¬ a = k' := fun hh => h (hh ▸ hp)
        simp [ddel, dget, hp, hp', hk, ih]
      · by_cases hp' : a = k'
        · simp [ddel, dget, hp, hp', hk, h]
        · simp [ddel, dget, hp, hp', ih]

theorem dget_dmodify_self (m : List (String × α)) (k : String) (g : α → α) :
    dget (dmodify m k g) k = (dget m k).map g := by
  induction m with
  | nil => simp [dmodify, dget]
  | cons p tl ih =>
      obtain ⟨a, b⟩ := p
      by_cases h : a = k
      · simp [dmodify, dget, h]
      · simp [dmodify, dget, h, ih]

theorem dget_dmodify_ne (m : List (String × α)) {k k' : String} (g : α → α)
    (h : k' ≠ k) : dget (dmodify m k g) k' = dget m k' := by
  have hk : ¬ k = k' := fun hh => h hh.symm
  induction m with
  | nil => simp [dmodify, dget]
  | cons p tl ih =>
      obtain ⟨a, b⟩ := p
      by_cases hp : a = k
      · have hp' : ¬ a = k' := fun hh => h (hh ▸ hp)
        simp [dmodify, dget, hp, hp', hk, ih]
      · by_cases hp' : a = k'
        · simp [dmodify, dget, hp, hp', hk, h]
        · simp [dmodify, dget, hp, hp', ih]

theorem dget_eq_none_of_not_mem (m : List (String × α)) (k : String)
    (h : k ∉ m.map Prod.fst) : dget m k = none := by
  induction m with
  | nil => simp [dget]
  | cons p tl ih =>
      simp only [List.map_cons, List.mem_cons] at h
      push_neg at h
      have : ¬ p.1 = k := fun hh => h.1 hh.symm
      simp [dget, this, ih h.2]

theorem dget_dmerge (r : List (String × α)) (d : List (String × α))
    (k : String) (hd : (d.map Prod.fst).Nodup) :
    dget (dmerge r d) k = ((dget d k).or (dget r k)) := by
  induction d generalizing r with
  | nil => simp [dmerge, dget, Option.or]
  | cons p tl ih =>
      have hnd : (tl.map Prod.fst).Nodup := (List.nodup_cons.mp hd).2
      have hnotin : p.1 ∉ tl.map Prod.fst := (List.nodup_cons.mp hd).1
      have step : dmerge r (p :: tl) = dmerge (dset r p.1 p.2) tl := by
        simp [dmerge]
      rw [step, ih _ hnd]
      by_cases hk : p.1 = k
      · subst hk
        have htl : dget tl p.1 = none := dget_eq_none_of_not_mem tl p.1 hnotin
        simp [dget, htl, dget_dset_self, Option.or]
      · have hk' : k ≠ p.1 := fun hh => hk hh.symm
        simp [dget, hk, dget_dset_ne r p.2 hk']

end DictLemmas

/-- The concrete movie record used by the spec's scenario for the JSON
store: `{rating:8.8, year:2010, poster:"u", external_id:"tt1375666"}`. -/
def inceptionRec : Record :=
  [("rating", PyVal.vFloat (44/5)), ("year", PyVal.vInt 2010),
   ("poster", PyVal.vStr "u"), ("external_id", PyVal.vStr "tt1375666")]

/-- C1: for every title `t` and record `r`, `add_movie t r` followed by
`list_movies` yields a mapping binding `t` to exactly `r`; on an empty
store the mapping after `add_movie` is exactly the one-entry mapping, and
the spec's concrete scenario holds: add "inception", list shows exactly
that entry, delete empties the store, and a second delete raises the
`NotFoundError` kind (`ValueError`) leaving the file unchanged. -/
theorem C1_add_then_list_contains (f : JFile) (t : String) (r : Record) :
    dget (StorageJson.list_movies (StorageJson.add_movie f t r)) t = some r ∧
    StorageJson.list_movies (StorageJson.add_movie (JFile.doc []) t r) = [(t, r)] ∧
    (StorageJson.list_movies (StorageJson.add_movie (JFile.doc []) "inception" inceptionRec)
        = [("inception", inceptionRec)] ∧
      StorageJson.delete_movie
          (StorageJson.add_movie (JFile.doc []) "inception" inceptionRec) "inception"
        = (.ok (), JFile.doc []) ∧
      StorageJson.list_movies (JFile.doc []) = [] ∧
      StorageJson.delete_movie (JFile.doc []) "inception"
        = (.error .valueError, JFile.doc [])) := by
  refine ⟨?_, ?_, rfl, rfl, rfl, rfl⟩
  · simp [StorageJson.list_movies, StorageJson.add_movie, StorageJson.read_movies,
      StorageJson.write_movies, dget_dset_self]
  · simp [StorageJson.list_movies, StorageJson.add_movie, StorageJson.read_movies,
      StorageJson.write_movies, dset]

/-- C2: when title `t` is absent from the JSON-backed store, both
`update_movie` and `delete_movie` raise the `NotFoundError` kind
(`ValueError`) and no write is attempted: the backing file is returned
unchanged. -/
theorem C2_absent_title_errors_file_unchanged (f : JFile) (t : String) (d : Record)
    (h : dmem (StorageJson.read_movies f) t = false) :
    StorageJson.update_movie f t d = (.error .valueError, f) ∧
    StorageJson.delete_movie f t = (.error .valueError, f) := by
  constructor <;>
    simp [StorageJson.update_movie, StorageJson.delete_movie, h]

/-- Witness for C2 at a concrete input: the empty store and title "x". -/
theorem C2_absent_title_errors_file_unchanged_witness :
    dmem (StorageJson.read_movies (JFile.doc [])) "x" = false ∧
    StorageJson.update_movie (JFile.doc []) "x" [] = (.error .valueError, JFile.doc []) ∧
    StorageJson.delete_movie (JFile.doc []) "x" = (.error .valueError, JFile.doc []) :=
  ⟨by decide,
   (C2_absent_title_errors_file_unchanged (JFile.doc []) "x" [] (by decide)).1,
   (C2_absent_title_errors_file_unchanged (JFile.doc []) "x" [] (by decide)).2⟩

/-- C3: when `t` is present with record `r` and the partial record `d` has
no duplicate field names, `update_movie t d` succeeds and replaces the
record at `t` by the shallow merge of `r` with `d`; at every field, the
merged record takes `d`'s value when `d` names the field and keeps `r`'s
value otherwise. -/
theorem C3_update_is_shallow_merge (f : JFile) (t : String) (d r : Record)
    (hr : dget (StorageJson.read_movies f) t = some r)
    (hd : (d.map Prod.fst).Nodup) :
    (StorageJson.update_movie f t d).1 = .ok () ∧
    dget (StorageJson.read_movies (StorageJson.update_movie f t d).2) t
      = some (dmerge r d) ∧
    ∀ k, dget (dmerge r d) k = ((dget d k).or (dget r k)) := by
  have hmem : dmem (StorageJson.read_movies f) t = true := by
    simp [dmem, hr]
  have hstep : StorageJson.update_movie f t d
      = (.ok (), StorageJson.write_movies
          (dmodify (StorageJson.read_movies f) t (fun r => dmerge r d))) := by
    simp [StorageJson.update_movie, hmem]
  refine ⟨?_, ?_, fun k => dget_dmerge r d k hd⟩
  · rw [hstep]
  · rw [hstep]
    simp [StorageJson.read_write, dget_dmodify_self, hr]

/-- The spec's merge-law record
`{rating:8.0, year:2000, poster:"P", external_id:"X"}`. -/
def mergeLawRec : Record :=
  [("rating", PyVal.vFloat 8), ("year", PyVal.vInt 2000),
   ("poster", PyVal.vStr "P"), ("external_id", PyVal.vStr "X")]

/-- Witness for C3 at the spec's merge-law input: updating with
`{notes:"great"}` yields the record with all four original fields plus
`notes` — no field lost. -/
theorem C3_update_is_shallow_merge_witness :
    dget (StorageJson.read_movies (JFile.doc [("t", mergeLawRec)])) "t"
      = some mergeLawRec ∧
    ((([("notes", PyVal.vStr "great")] : Record).map Prod.fst).Nodup) ∧
    dget (StorageJson.read_movies
        (StorageJson.update_movie (JFile.doc [("t", mergeLawRec)]) "t"
          [("notes", PyVal.vStr "great")]).2) "t"
      = some [("rating", PyVal.vFloat 8), ("year", PyVal.vInt 2000),
              ("poster", PyVal.vStr "P"), ("external_id", PyVal.vStr "X"),
              ("notes", PyVal.vStr "great")] := by
  have h := C3_update_is_shallow_merge (JFile.doc [("t", mergeLawRec)]) "t"
    [("notes", PyVal.vStr "great")] mergeLawRec (by decide) (by decide)
  refine ⟨by decide, by decide, ?_⟩
  rw [h.2.1]
  decide

/-- C4: for every backing-file state, saving the result of a load and
loading again yields the same mapping as the original load — `save` after
`load` is semantically idempotent. -/
theorem C4_save_load_idempotent (f : JFile) :
    StorageJson.read_movies (StorageJson.write_movies (StorageJson.read_movies f))
      = StorageJson.read_movies f := by
  cases f <;> rfl

/-- C5 counterexample: the adapter of the top-level `src/storage_json.py`
constructed against a missing path writes nothing — the path still holds
no file, in particular not an empty document, contradicting the claim that
construction immediately writes an empty structured document. -/
theorem C5_counterexample :
    StorageJsonTop.construct JFile.missing = JFile.missing ∧
    JFile.missing ≠ StorageJson.write_movies [] := by
  decide

/-- C5 (amended): the `storage/` package adapter's constructor bootstraps a
missing backing file with an empty document, and a load right after
construction returns the empty mapping; the top-level adapter's
constructor leaves a missing path untouched, yet a load right after its
construction still returns the empty mapping without raising. -/
theorem C5_bootstrap_amended :
    StorageJson.construct JFile.missing = JFile.doc [] ∧
    StorageJson.read_movies (StorageJson.construct JFile.missing) = [] ∧
    StorageJsonTop.construct JFile.missing = JFile.missing ∧
    StorageJson.read_movies (StorageJsonTop.construct JFile.missing) = [] := by
  decide

/-- C9: mutating operations of the JSON-backed store are frame-preserving:
for any other title `t' ≠ t`, `add_movie t r`, a successful
`delete_movie t` and a successful `update_movie t d` leave the record
stored at `t'` exactly unchanged. -/
theorem C9_frame_preservation (f : JFile) (t t' : String) (r d : Record)
    (h : t' ≠ t) :
    dget (StorageJson.read_movies (StorageJson.add_movie f t r)) t'
      = dget (StorageJson.read_movies f) t' ∧
    (dmem (StorageJson.read_movies f) t = true →
      dget (StorageJson.read_movies (StorageJson.delete_movie f t).2) t'
        = dget (StorageJson.read_movies f) t') ∧
    (dmem (StorageJson.read_movies f) t = true →
      dget (StorageJson.read_movies (StorageJson.update_movie f t d).2) t'
        = dget (StorageJson.read_movies f) t') := by
  refine ⟨?_, fun hm => ?_, fun hm => ?_⟩
  · show dget (StorageJson.read_movies (StorageJson.write_movies
        (dset (StorageJson.read_movies f) t r))) t'
      = dget (StorageJson.read_movies f) t'
    rw [StorageJson.read_write]
    exact dget_dset_ne _ r h
  · have hstep : StorageJson.delete_movie f t
        = (.ok (), StorageJson.write_movies (ddel (StorageJson.read_movies f) t)) := by
      simp [StorageJson.delete_movie, hm]
    rw [hstep, StorageJson.read_write]
    exact dget_ddel_ne _ h
  · have hstep : StorageJson.update_movie f t d
        = (.ok (), StorageJson.write_movies
            (dmodify (StorageJson.read_movies f) t (fun r => dmerge r d))) := by
      simp [StorageJson.update_movie, hm]
    rw [hstep, StorageJson.read_write]
    exact dget_dmodify_ne _ _ h

/-- Witness for C9 at a concrete two-entry store: mutating "b" does not
disturb the record at "a". -/
theorem C9_frame_preservation_witness :
    (("a" : String) ≠ "b") ∧
    dmem (StorageJson.read_movies
      (JFile.doc [("a", [("rating", PyVal.vInt 1)]), ("b", [("rating", PyVal.vInt 2)])])) "b"
      = true ∧
    (dget (StorageJson.read_movies (StorageJson.add_movie
        (JFile.doc [("a", [("rating", PyVal.vInt 1)]), ("b", [("rating", PyVal.vInt 2)])])
        "b" [("rating", PyVal.vInt 3)])) "a"
      = dget (StorageJson.read_movies
        (JFile.doc [("a", [("rating", PyVal.vInt 1)]), ("b", [("rating", PyVal.vInt 2)])])) "a") ∧
    (dget (StorageJson.read_movies (StorageJson.delete_movie
        (JFile.doc [("a", [("rating", PyVal.vInt 1)]), ("b", [("rating", PyVal.vInt 2)])])
        "b").2) "a"
      = dget (StorageJson.read_movies
        (JFile.doc [("a", [("rating", PyVal.vInt 1)]), ("b", [("rating", PyVal.vInt 2)])])) "a") ∧
    (dget (StorageJson.read_movies (StorageJson.update_movie
        (JFile.doc [("a", [("rating", PyVal.vInt 1)]), ("b", [("rating", PyVal.vInt 2)])])
        "b" [("notes", PyVal.vStr "n")]).2) "a"
      = dget (StorageJson.read_movies
        (JFile.doc [("a", [("rating", PyVal.vInt 1)]), ("b", [("rating", PyVal.vInt 2)])])) "a") :=
  ⟨by decide, by decide,
   (C9_frame_preservation _ "b" "a" [("rating", PyVal.vInt 3)]
      [("notes", PyVal.vStr "n")] (by decide)).1,
   (C9_frame_preservation _ "b" "a" [("rating", PyVal.vInt 3)]
      [("notes", PyVal.vStr "n")] (by decide)).2.1 (by decide),
   (C9_frame_preservation _ "b" "a" [("rating", PyVal.vInt 3)]
      [("notes", PyVal.vStr "n")] (by decide)).2.2 (by decide)⟩

/-- The character of a decimal digit (arguments above 9 clamp to '9';
only digits 0-9 are ever passed). -/
def digitChar : Nat → Char
  | 0 => '0'
  | 1 => '1'
  | 2 => '2'
  | 3 => '3'
  | 4 => '4'
  | 5 => '5'
  | 6 => '6'
  | 7 => '7'
  | 8 => '8'
  | _ => '9'

/-- The decimal digit denoted by a character, if any. -/
def charDigit? (c : Char) : Option Nat :=
  if c = '0' then some 0
  else if c = '1' then some 1
  else if c = '2' then some 2
  else if c = '3' then some 3
  else if c = '4' then some 4
  else if c = '5' then some 5
  else if c = '6' then some 6
  else if c = '7' then some 7
  else if c = '8' then some 8
  else if c = '9' then some 9
  else none

/-- Little-endian decimal digits of the second argument (empty for 0), by
fuel recursion so the kernel can evaluate it; the fuel is the number
itself, which always suffices. -/
def decDigitsAux : Nat → Nat → List Nat
  | 0, _ => []
  | _ + 1, 0 => []
  | fuel + 1, n + 1 => ((n + 1) % 10) :: decDigitsAux fuel ((n + 1) / 10)

/-- Little-endian decimal digits of `n` (empty for 0). -/
def decDigits (n : Nat) : List Nat :=
  decDigitsAux n n

/-- The value of a big-endian digit list. -/
def bigEndVal (ds : List Nat) : Nat :=
  Nat.ofDigits 10 ds.reverse

/-- Read every character as a decimal digit, failing on the first
non-digit. -/
def digitsOf : List Char → Option (List Nat)
  | [] => some []
  | c :: cs =>
      match charDigit? c, digitsOf cs with
      | some d, some ds => some (d :: ds)
      | _, _ => none

/-- Python `str` of a natural number: big-endian decimal digits. -/
def natToDec (n : Nat) : List Char :=
  if n = 0 then ['0'] else ((decDigits n).map digitChar).reverse

/-- Python `str` of an int: an optional minus sign, then the digits. -/
def intToDec (n : Int) : List Char :=
  (if n < 0 then ['-'] else []) ++ natToDec n.natAbs

/-- A non-empty run of decimal digits, as accepted by Python `int` on a
plain literal. -/
def parseNat? (cs : List Char) : Option Nat :=
  match digitsOf cs with
  | some ds => if cs = [] then none else some (bigEndVal ds)
  | none => none

/-- Python `int(s)` on a plain decimal literal: optional sign then one or
more digits.  Python also strips surrounding whitespace and allows
underscore separators; such literals never occur in this program's data. -/
def parseInt? (cs : List Char) : Option Int :=
  if cs.head? = some '-' then (parseNat? cs.tail).map (fun x => -(x : Int))
  else if cs.head? = some '+' then (parseNat? cs.tail).map (fun x => (x : Int))
  else (parseNat? cs).map (fun x => (x : Int))

/-- Largest exponent `e` such that `p ^ e` divides `n` (0 when `p < 2` or
`n = 0`), by fuel recursion (`n % p = 0` is the divisibility test). -/
def multOfAux (p : Nat) : Nat → Nat → Nat
  | 0, _ => 0
  | fuel + 1, n =>
      if 2 ≤ p ∧ n ≠ 0 ∧ n % p = 0 then multOfAux p fuel (n / p) + 1 else 0

/-- Largest exponent of `p` dividing `n`. -/
def multOf (p n : Nat) : Nat :=
  multOfAux p n n

/-- The number of fraction digits Python prints for the float `q`: enough
tens to clear the denominator, and at least one (`str(8.0) = "8.0"`). -/
def fexp (q : ℚ) : Nat :=
  max (max (multOf 2 q.den) (multOf 5 q.den)) 1

/-- Python `str` of a float whose denominator divides `10 ^ fexp q`
(every actual Python float is such a decimal): sign, integer digits, a
dot, and `fexp q` fraction digits.  Python prints the shortest
round-tripping decimal and uses scientific notation for extreme
magnitudes; on the plain decimals stored by this program the two agree.
`paddedDigits` is the little-endian digit list of the numerator scaled by
`10 ^ fexp q`, padded with high zeros to at least `fexp q + 1` digits so
that both the fraction and the integer part get at least one digit. -/
def paddedDigits (q : ℚ) : List Nat :=
  let k := fexp q
  let ds0 := decDigits (q.num.natAbs * 10 ^ k / q.den)
  ds0 ++ List.replicate (k + 1 - ds0.length) 0

def floatToDec (q : ℚ) : List Char :=
  let k := fexp q
  let ds := paddedDigits q
  (if q.num < 0 then ['-'] else []) ++
    ((ds.drop k).reverse.map digitChar) ++ '.' :: ((ds.take k).reverse.map digitChar)

/-- Split a character list at its first dot. -/
def splitDot : List Char → List Char × Option (List Char)
  | [] => ([], none)
  | c :: cs =>
      if c = '.' then ([], some cs)
      else
        let r := splitDot cs
        (c :: r.1, r.2)

/-- Unsigned part of Python `float(s)` on a plain decimal literal:
digits, an optional dot, digits — the two digit groups not both empty. -/
def parseFloatCore (cs : List Char) : Option ℚ :=
  match splitDot cs with
  | (a, none) =>
      match digitsOf a with
      | some ds => if a = [] then none else some ((bigEndVal ds : ℚ))
      | none => none
  | (a, some b) =>
      match digitsOf a, digitsOf b with
      | some da, some db =>
          if a = [] ∧ b = [] then none
          else some ((bigEndVal da : ℚ) + (bigEndVal db : ℚ) / 10 ^ b.length)
      | _, _ => none

/-- Python `float(s)` on a plain decimal literal with optional sign.
Python also accepts whitespace, exponent notation, `inf` and `nan`;
none of those occur in this program's data. -/
def parseFloat? (cs : List Char) : Option ℚ :=
  if cs.head? = some '-' then (parseFloatCore cs.tail).map (fun q => -q)
  else if cs.head? = some '+' then parseFloatCore cs.tail
  else parseFloatCore cs

theorem charDigit?_digitChar {d : Nat} (h : d < 10) :
    charDigit? (digitChar d) = some d := by
  interval_cases d <;> rfl

theorem digitChar_ne_dot {d : Nat} (h : d < 10) : digitChar d ≠ '.' := by
  interval_cases d <;> decide

theorem digitChar_ne_minus {d : Nat} (h : d < 10) : digitChar d ≠ '-' := by
  interval_cases d <;> decide

theorem digitChar_ne_plus {d : Nat} (h : d < 10) : digitChar d ≠ '+' := by
  interval_cases d <;> decide

theorem decDigitsAux_lt_ten : ∀ fuel n, ∀ d ∈ decDigitsAux fuel n, d < 10 := by
  intro fuel
  induction fuel with
  | zero => intro n d hd; simp [decDigitsAux] at hd
  | succ fuel ih =>
      intro n d hd
      cases n with
      | zero => simp [decDigitsAux] at hd
      | succ m =>
          simp only [decDigitsAux, List.mem_cons] at hd
          rcases hd with h | h
          · subst h; exact Nat.mod_lt _ (by omega)
          · exact ih _ d h

theorem ofDigits_decDigitsAux :
    ∀ fuel n, n ≤ fuel → Nat.ofDigits 10 (decDigitsAux fuel n) = n := by
  intro fuel
  induction fuel with
  | zero => intro n hn; interval_cases n; simp [decDigitsAux, Nat.ofDigits]
  | succ fuel ih =>
      intro n hn
      cases n with
      | zero => simp [decDigitsAux, Nat.ofDigits]
      | succ m =>
          have hdiv : (m + 1) / 10 ≤ fuel := by
            have : (m + 1) / 10 < m + 1 := Nat.div_lt_self (by omega) (by omega)
            omega
          simp only [decDigitsAux, Nat.ofDigits_cons, ih _ hdiv]
          omega

theorem ofDigits_decDigits (n : Nat) : Nat.ofDigits 10 (decDigits n) = n :=
  ofDigits_decDigitsAux n n le_rfl

theorem decDigits_lt_ten (n : Nat) : ∀ d ∈ decDigits n, d < 10 :=
  decDigitsAux_lt_ten n n

theorem decDigits_ne_nil {n : Nat} (h : n ≠ 0) : decDigits n ≠ [] := by
  cases n with
  | zero => exact absurd rfl h
  | succ m => simp [decDigits, decDigitsAux]

theorem ofDigits_replicate_zero (b z : Nat) :
    Nat.ofDigits b (List.replicate z 0) = 0 := by
  induction z with
  | zero => simp [Nat.ofDigits]
  | succ z ih => simp [List.replicate, Nat.ofDigits_cons, ih]

theorem digitsOf_map_digitChar (ds : List Nat) (h : ∀ d ∈ ds, d < 10) :
    digitsOf (ds.map digitChar) = some ds := by
  induction ds with
  | nil => rfl
  | cons d tl ih =>
      have hd : d < 10 := h d (List.mem_cons_self d tl)
      have htl : ∀ x ∈ tl, x < 10 := fun x hx => h x (List.mem_cons_of_mem d hx)
      simp [digitsOf, charDigit?_digitChar hd, ih htl]

theorem parseNat?_natToDec (n : Nat) : parseNat? (natToDec n) = some n := by
  by_cases h : n = 0
  · subst h; rfl
  · have hmap : natToDec n = (decDigits n).reverse.map digitChar := by
      simp [natToDec, h, List.map_reverse]
    have hlt : ∀ d ∈ (decDigits n).reverse, d < 10 := by
      intro d hd
      exact decDigits_lt_ten n d (List.mem_reverse.mp hd)
    have hne : (decDigits n).reverse.map digitChar ≠ [] := by
      simp [decDigits_ne_nil h]
    rw [hmap]
    simp only [parseNat?, digitsOf_map_digitChar _ hlt, if_neg hne]
    simp [bigEndVal, List.reverse_reverse, ofDigits_decDigits]

theorem natToDec_head (n : Nat) :
    ∃ d, d < 10 ∧ (natToDec n).head? = some (digitChar d) := by
  by_cases h : n = 0
  · exact ⟨0, by omega, by subst h; rfl⟩
  · have hmap : natToDec n = (decDigits n).reverse.map digitChar := by
      simp [natToDec, h, List.map_reverse]
    have hne : (decDigits n).reverse ≠ [] := by
      simp [decDigits_ne_nil h]
    obtain ⟨e, es, heq⟩ := List.exists_cons_of_ne_nil hne
    refine ⟨e, ?_, ?_⟩
    · exact decDigits_lt_ten n e (List.mem_reverse.mp (heq ▸ List.mem_cons_self e es))
    · rw [hmap, heq]
      rfl

theorem parseInt?_intToDec (n : Int) : parseInt? (intToDec n) = some n := by
  by_cases hneg : n < 0
  · have hdec : intToDec n = '-' :: natToDec n.natAbs := by
      simp [intToDec, hneg]
    rw [hdec]
    simp [parseInt?, parseNat?_natToDec]
    have habs := abs_of_neg hneg
    omega
  · obtain ⟨d, hd, hhead⟩ := natToDec_head n.natAbs
    have hdec : intToDec n = natToDec n.natAbs := by
      simp [intToDec, hneg]
    rw [hdec]
    simp [parseInt?, hhead, digitChar_ne_minus hd, digitChar_ne_plus hd,
      parseNat?_natToDec]
    omega

theorem splitDot_no_dot (a b : List Char) (h : '.' ∉ a) :
    splitDot (a ++ '.' :: b) = (a, some b) := by
  induction a with
  | nil => simp [splitDot]
  | cons c cs ih =>
      have hc : ¬ c = '.' := fun hh => h (hh ▸ List.mem_cons_self c cs)
      have hcs : '.' ∉ cs := fun hh => h (List.mem_cons_of_mem c hh)
      simp [splitDot, hc, ih hcs]

theorem parseFloatCore_render (ds : List Nat) (k : Nat)
    (hlt : ∀ d ∈ ds, d < 10) (hlen : k < ds.length) :
    parseFloatCore
        ((ds.drop k).reverse.map digitChar ++ '.' :: ((ds.take k).reverse.map digitChar))
      = some (((Nat.ofDigits 10 ds : ℕ) : ℚ) / 10 ^ k) := by
  have hdrop10 : ∀ d ∈ (ds.drop k).reverse, d < 10 := fun d hd =>
    hlt d (List.drop_subset _ _ (List.mem_reverse.mp hd))
  have htake10 : ∀ d ∈ (ds.take k).reverse, d < 10 := fun d hd =>
    hlt d (List.take_subset _ _ (List.mem_reverse.mp hd))
  have hnodot : '.' ∉ (ds.drop k).reverse.map digitChar := by
    intro hmem
    obtain ⟨d, hdm, hdc⟩ := List.mem_map.mp hmem
    exact digitChar_ne_dot (hdrop10 d hdm) hdc
  have hsplit := splitDot_no_dot _ ((ds.take k).reverse.map digitChar) hnodot
  have hne : (ds.drop k).reverse.map digitChar ≠ [] := by
    simp only [ne_eq, List.map_eq_nil_iff, List.reverse_eq_nil_iff]
    intro hnil
    have := List.drop_eq_nil_iff.mp hnil
    omega
  have hiff : ¬ ((ds.drop k).reverse.map digitChar = [] ∧
      (ds.take k).reverse.map digitChar = []) := fun hh => hne hh.1
  simp only [parseFloatCore, hsplit]
  rw [digitsOf_map_digitChar _ hdrop10, digitsOf_map_digitChar _ htake10]
  simp only [hiff, if_false]
  have hfraclen : ((ds.take k).reverse.map digitChar).length = k := by
    simp [List.length_take, min_eq_left (le_of_lt hlen)]
  rw [hfraclen]
  have hsplitval :
      Nat.ofDigits 10 (ds.take k) + 10 ^ k * Nat.ofDigits 10 (ds.drop k)
        = Nat.ofDigits 10 ds := by
    conv_rhs => rw [← List.take_append_drop k ds]
    rw [Nat.ofDigits_append, List.length_take, min_eq_left (le_of_lt hlen)]
  have h10 : (10 : ℚ) ^ k ≠ 0 := pow_ne_zero _ (by norm_num)
  simp only [bigEndVal, List.reverse_reverse]
  congr 1
  field_simp
  rw [← hsplitval]
  push_cast
  ring

theorem paddedDigits_lt_ten (q : ℚ) : ∀ d ∈ paddedDigits q, d < 10 := by
  intro d hd
  simp only [paddedDigits] at hd
  rcases List.mem_append.mp hd with h | h
  · exact decDigits_lt_ten _ d h
  · have := List.eq_of_mem_replicate h
    omega

theorem fexp_lt_length (q : ℚ) : fexp q < (paddedDigits q).length := by
  simp only [paddedDigits, List.length_append, List.length_replicate]
  omega

theorem ofDigits_paddedDigits (q : ℚ) :
    Nat.ofDigits 10 (paddedDigits q) = q.num.natAbs * 10 ^ fexp q / q.den := by
  simp only [paddedDigits]
  rw [Nat.ofDigits_append, ofDigits_replicate_zero, ofDigits_decDigits]
  ring

theorem parseFloat?_cons_minus (cs : List Char) :
    parseFloat? ('-' :: cs) = (parseFloatCore cs).map (fun q => -q) := rfl

theorem parseFloat?_no_sign (cs : List Char)
    (h1 : cs.head? ≠ some '-') (h2 : cs.head? ≠ some '+') :
    parseFloat? cs = parseFloatCore cs := by
  simp [parseFloat?, h1, h2]

theorem parseFloat?_floatToDec (q : ℚ) (h : (q.den : ℕ) ∣ 10 ^ fexp q) :
    parseFloat? (floatToDec q) = some q := by
  have hcore := parseFloatCore_render (paddedDigits q) (fexp q)
    (paddedDigits_lt_ten q) (fexp_lt_length q)
  have hdropne : ((paddedDigits q).drop (fexp q)).reverse ≠ [] := by
    simp only [ne_eq, List.reverse_eq_nil_iff]
    intro hnil
    have h1 := List.drop_eq_nil_iff.mp hnil
    have h2 := fexp_lt_length q
    omega
  obtain ⟨e, es, heq⟩ := List.exists_cons_of_ne_nil hdropne
  have he10 : e < 10 := paddedDigits_lt_ten q e
    (List.drop_subset _ _ (List.mem_reverse.mp (heq ▸ List.mem_cons_self e es)))
  have hval : (q.num.natAbs * 10 ^ fexp q / q.den : ℕ) * q.den
      = q.num.natAbs * 10 ^ fexp q :=
    Nat.div_mul_cancel (Dvd.dvd.mul_left h _)
  have hden0 : (q.den : ℚ) ≠ 0 := Nat.cast_ne_zero.mpr q.den_nz
  have h10 : (10 : ℚ) ^ fexp q ≠ 0 := pow_ne_zero _ (by norm_num)
  have hAval : ((q.num.natAbs * 10 ^ fexp q / q.den : ℕ) : ℚ)
      = (q.num.natAbs : ℚ) * 10 ^ fexp q / q.den := by
    rw [eq_div_iff hden0]
    exact_mod_cast hval
  by_cases hneg : q.num < 0
  · have hexpand : floatToDec q
        = '-' :: (((paddedDigits q).drop (fexp q)).reverse.map digitChar ++
            '.' :: (((paddedDigits q).take (fexp q)).reverse.map digitChar)) := by
      simp [floatToDec, hneg]
    rw [hexpand, parseFloat?_cons_minus, hcore]
    simp only [Option.map_some']
    congr 1
    rw [ofDigits_paddedDigits, hAval]
    have hnum : ((q.num.natAbs : ℚ)) = -(q.num : ℚ) := by
      rw [Int.cast_natAbs, abs_of_neg hneg]
      push_cast
      ring
    rw [hnum]
    conv_rhs => rw [← Rat.num_div_den q]
    field_simp
    ring
  · have hexpand : floatToDec q
        = ((paddedDigits q).drop (fexp q)).reverse.map digitChar ++
            '.' :: (((paddedDigits q).take (fexp q)).reverse.map digitChar) := by
      simp [floatToDec, hneg]
    have hhead : (((paddedDigits q).drop (fexp q)).reverse.map digitChar ++
        '.' :: (((paddedDigits q).take (fexp q)).reverse.map digitChar)).head?
          = some (digitChar e) := by
      rw [heq]
      rfl
    have h1 : (((paddedDigits q).drop (fexp q)).reverse.map digitChar ++
        '.' :: (((paddedDigits q).take (fexp q)).reverse.map digitChar)).head?
          ≠ some '-' := by
      rw [hhead]
      simp [digitChar_ne_minus he10]
    have h2 : (((paddedDigits q).drop (fexp q)).reverse.map digitChar ++
        '.' :: (((paddedDigits q).take (fexp q)).reverse.map digitChar)).head?
          ≠ some '+' := by
      rw [hhead]
      simp [digitChar_ne_plus he10]
    rw [hexpand, parseFloat?_no_sign _ h1 h2, hcore]
    congr 1
    rw [ofDigits_paddedDigits, hAval]
    have hnum : ((q.num.natAbs : ℚ)) = (q.num : ℚ) := by
      rw [Int.cast_natAbs, abs_of_nonneg (le_of_not_lt hneg)]
    rw [hnum]
    conv_rhs => rw [← Rat.num_div_den q]
    field_simp
    ring

/-- Python `str` of a scalar value, as the csv module renders cells
(`str` of a string is itself). -/
def pyStr : PyVal → String
  | .vStr s => s
  | .vInt n => String.mk (intToDec n)
  | .vFloat q => String.mk (floatToDec q)

/-- Python `float(s)` on a string cell. -/
def parseFloatStr (s : String) : Option ℚ :=
  parseFloat? s.toList

/-- Python `int(s)` on a string cell. -/
def parseIntStr (s : String) : Option Int :=
  parseInt? s.toList

/-- The CSV backing file: absent, or a header row followed by data rows of
string cells — exactly what `csv.DictWriter`/`csv.DictReader` exchange
(cell quoting is the csv module's concern and is invisible here). -/
inductive CsvFile where
  | missing
  | table (header : List String) (rows : List (List String))
deriving DecidableEq

/-- Lift an optional value into `Except`: Python raises `e` when the
value is absent. -/
def getOr {α : Type} (o : Option α) (e : PyErr) : Except PyErr α :=
  match o with
  | some v => .ok v
  | none => .error e

namespace StorageCsv

/-- The `for row in reader` loop of `StorageCsv._read_movies`:
`csv.DictReader` pairs the header with each row (`header.zip row`), then
`row['title']`, `float(row['rating'])` and `int(row['year'])` are
evaluated in that order (`KeyError` on a missing column, `ValueError` on
an unparseable number), and `movies[title] = {'rating': ..., 'year': ...}`
updates the accumulator.  A row shorter than the header is modelled as
missing its absent columns (CPython would pass `None` along and fail a
step later; either way the read raises). -/
def readRows (header : List String) : Movies → List (List String) → Except PyErr Movies
  | acc, [] => .ok acc
  | acc, row :: rest => do
      let dictRow := header.zip row
      let title ← getOr (dget dictRow "title") (.keyError "title")
      let ratingCell ← getOr (dget dictRow "rating") (.keyError "rating")
      let rating ← getOr (parseFloatStr ratingCell) .valueError
      let yearCell ← getOr (dget dictRow "year") (.keyError "year")
      let year ← getOr (parseIntStr yearCell) .valueError
      readRows header
        (dset acc title [("rating", .vFloat rating), ("year", .vInt year)]) rest

/-- `StorageCsv._read_movies`: a missing file yields an empty dict (only
`FileNotFoundError` is caught); otherwise the rows are read as above and
any exception propagates. -/
def read_movies : CsvFile → Except PyErr Movies
  | .missing => .ok []
  | .table header rows => readRows header [] rows

/-- One `writer.writerow(...)` of `StorageCsv._write_movies`: the row dict
evaluates `title`, `details['rating']`, `details['year']` in order
(raising `KeyError` on a missing field); the csv writer renders each
value with `str`. -/
def writeRow (p : String × Record) : Except PyErr (List String) := do
  let rv ← getOr (dget p.2 "rating") (.keyError "rating")
  let yv ← getOr (dget p.2 "year") (.keyError "year")
  .ok [p.1, pyStr rv, pyStr yv]

/-- The `for title, details in movies.items()` loop of `_write_movies`. -/
def writeRows : Movies → Except PyErr (List (List String))
  | [] => .ok []
  | p :: tl => do
      let row ← writeRow p
      let rows ← writeRows tl
      .ok (row :: rows)

/-- `StorageCsv._write_movies`: the fixed header then one row per movie.
(A `KeyError` raised mid-write leaves a partially truncated real file;
no claim depends on that state and it is not modelled.) -/
def write_movies (m : Movies) : Except PyErr CsvFile := do
  let rows ← writeRows m
  .ok (.table ["title", "rating", "year"] rows)

/-- `StorageCsv.list_movies`. -/
def list_movies (f : CsvFile) : Except PyErr Movies :=
  read_movies f

/-- `StorageCsv.add_movie`: read, `movies[title] = details`, write. -/
def add_movie (f : CsvFile) (title : String) (details : Record) :
    Except PyErr Unit × CsvFile :=
  match read_movies f with
  | .error e => (.error e, f)
  | .ok movies =>
      match write_movies (dset movies title details) with
      | .error e => (.error e, f)
      | .ok f' => (.ok (), f')

/-- `StorageCsv.delete_movie`: read, and only `if title in movies:` delete
and write — an absent title is silently ignored, no exception and no
write. -/
def delete_movie (f : CsvFile) (title : String) : Except PyErr Unit × CsvFile :=
  match read_movies f with
  | .error e => (.error e, f)
  | .ok movies =>
      if dmem movies title then
        match write_movies (ddel movies title) with
        | .error e => (.error e, f)
        | .ok f' => (.ok (), f')
      else (.ok (), f)

/-- `StorageCsv.update_movie`: raises `ValueError` when the title is
absent, else merges the fields in and writes. -/
def update_movie (f : CsvFile) (title : String) (details : Record) :
    Except PyErr Unit × CsvFile :=
  match read_movies f with
  | .error e => (.error e, f)
  | .ok movies =>
      if dmem movies title then
        match write_movies (dmodify movies title (fun r => dmerge r details)) with
        | .error e => (.error e, f)
        | .ok f' => (.ok (), f')
      else (.error .valueError, f)

end StorageCsv

/-- C6 counterexample: a CSV backing file that exists but is not parseable
as the expected format (rating cell "xx" fails `float`) makes the CSV
`load` raise a `ValueError` instead of returning an empty mapping, so the
claim fails for the CSV-backed implementation. -/
theorem C6_counterexample :
    StorageCsv.read_movies
        (CsvFile.table ["title", "rating", "year"] [["a", "xx", "2000"]])
      = .error .valueError ∧
    StorageCsv.read_movies
        (CsvFile.table ["title", "rating", "year"] [["a", "xx", "2000"]])
      ≠ .ok [] := by
  refine ⟨rfl, ?_⟩
  decide

/-- C6 (amended): the JSON-backed `load` returns an empty mapping on any
unparseable backing file, and the CSV-backed `load` tolerates only a
missing file — on present-but-unparseable content (here an `xx` rating
cell, and a file without the expected columns) it raises instead. -/
theorem C6_corruption_tolerance_amended (s : String) :
    StorageJson.read_movies (JFile.invalid s) = [] ∧
    StorageCsv.read_movies CsvFile.missing = .ok [] ∧
    StorageCsv.read_movies
        (CsvFile.table ["title", "rating", "year"] [["a", "xx", "2000"]])
      = .error .valueError ∧
    StorageCsv.read_movies (CsvFile.table ["garbage"] [["x"]])
      = .error (.keyError "title") := by
  exact ⟨rfl, rfl, rfl, rfl⟩

/-- C7 counterexample: deleting a title that is absent from a CSV-backed
store is not an error — the call returns successfully and leaves the file
unchanged, so "delete on a non-existent title is an error for every
storage implementation" fails. -/
theorem C7_counterexample :
    StorageCsv.delete_movie
        (CsvFile.table ["title", "rating", "year"] [["a", "8.8", "2000"]]) "ghost"
      = (.ok (), CsvFile.table ["title", "rating", "year"] [["a", "8.8", "2000"]]) := by
  rfl

/-- C7 (amended): the JSON-backed `delete` raises the `NotFoundError`
kind (`ValueError`) on an absent title and leaves the file unchanged;
the CSV-backed `delete` silently succeeds on an absent title, also
leaving the file unchanged. -/
theorem C7_delete_absent_amended (f : JFile) (g : CsvFile) (t : String)
    (m : Movies)
    (hj : dmem (StorageJson.read_movies f) t = false)
    (hc : StorageCsv.read_movies g = .ok m)
    (hm : dmem m t = false) :
    StorageJson.delete_movie f t = (.error .valueError, f) ∧
    StorageCsv.delete_movie g t = (.ok (), g) := by
  constructor
  · simp [StorageJson.delete_movie, hj]
  · simp [StorageCsv.delete_movie, hc, hm]

/-- Witness for C7 (amended) at concrete inputs: the empty JSON store and
the missing CSV file, title "x". -/
theorem C7_delete_absent_amended_witness :
    (dmem (StorageJson.read_movies (JFile.doc [])) "x" = false ∧
     StorageCsv.read_movies CsvFile.missing = .ok [] ∧
     dmem ([] : Movies) "x" = false) ∧
    StorageJson.delete_movie (JFile.doc []) "x" = (.error .valueError, JFile.doc []) ∧
    StorageCsv.delete_movie CsvFile.missing "x" = (.ok (), CsvFile.missing) :=
  ⟨⟨by decide, rfl, by decide⟩,
   (C7_delete_absent_amended (JFile.doc []) CsvFile.missing "x" []
      (by decide) rfl (by decide)).1,
   (C7_delete_absent_amended (JFile.doc []) CsvFile.missing "x" []
      (by decide) rfl (by decide)).2⟩

theorem dget_append {α : Type} (a b : List (String × α)) (k : String) :
    dget (a ++ b) k = ((dget a k).or (dget b k)) := by
  induction a with
  | nil => simp [dget, Option.or]
  | cons p tl ih =>
      obtain ⟨x, v⟩ := p
      by_cases h : x = k
      · simp [dget, h, Option.or]
      · simp [dget, h, ih]

theorem dmem_append {α : Type} (a b : List (String × α)) (k : String) :
    dmem (a ++ b) k = (dmem a k || dmem b k) := by
  cases hx : dget a k <;> simp [dmem, dget_append, hx, Option.or]

theorem dset_not_mem {α : Type} (m : List (String × α)) (k : String) (v : α)
    (h : dmem m k = false) : dset m k v = m ++ [(k, v)] := by
  induction m with
  | nil => simp [dset]
  | cons p tl ih =>
      obtain ⟨x, w⟩ := p
      have hx : ¬ x = k := by
        intro hh
        simp [dmem, dget, hh] at h
      have htl : dmem tl k = false := by
        simpa [dmem, dget, hx] using h
      simp [dset, hx, ih htl]

theorem foldl_dset_of_disjoint {α : Type} (g : String × α → α) (m : List (String × α)) :
    ∀ acc : List (String × α),
      (m.map Prod.fst).Nodup →
      (∀ p ∈ m, dmem acc p.1 = false) →
      m.foldl (fun a p => dset a p.1 (g p)) acc
        = acc ++ m.map (fun p => (p.1, g p)) := by
  induction m with
  | nil =>
      intro acc _ _
      simp
  | cons p tl ih =>
      intro acc hnd hdisj
      have hp : dmem acc p.1 = false := hdisj p (List.mem_cons_self p tl)
      have hnd' : (tl.map Prod.fst).Nodup := (List.nodup_cons.mp hnd).2
      have hpnot : p.1 ∉ tl.map Prod.fst := (List.nodup_cons.mp hnd).1
      have hdisj' : ∀ x ∈ tl, dmem (acc ++ [(p.1, g p)]) x.1 = false := by
        intro x hx
        have h1 : dmem acc x.1 = false := hdisj x (List.mem_cons_of_mem p hx)
        have h2 : ¬ p.1 = x.1 := by
          intro hh
          exact hpnot (hh ▸ List.mem_map_of_mem Prod.fst hx)
        rw [dmem_append, h1]
        simp [dmem, dget, h2]
      simp only [List.foldl_cons]
      rw [dset_not_mem _ _ _ hp, ih (acc ++ [(p.1, g p)]) hnd' hdisj']
      simp

theorem except_bind_ok {α β : Type} (a : α) (g : α → Except PyErr β) :
    (Except.ok a >>= g) = g a :=
  rfl

theorem parseFloatStr_mk (cs : List Char) :
    parseFloatStr (String.mk cs) = parseFloat? cs :=
  rfl

theorem parseIntStr_mk (cs : List Char) :
    parseIntStr (String.mk cs) = parseInt? cs :=
  rfl

theorem writeRows_ok (m : Movies)
    (h : ∀ p ∈ m, (dget p.2 "rating").isSome ∧ (dget p.2 "year").isSome) :
    StorageCsv.writeRows m
      = .ok (m.map (fun p =>
          [p.1, pyStr ((dget p.2 "rating").getD (PyVal.vInt 0)),
           pyStr ((dget p.2 "year").getD (PyVal.vInt 0))])) := by
  induction m with
  | nil => rfl
  | cons p tl ih =>
      obtain ⟨hr, hy⟩ := h p (List.mem_cons_self p tl)
      obtain ⟨rv, hrv⟩ := Option.isSome_iff_exists.mp hr
      obtain ⟨yv, hyv⟩ := Option.isSome_iff_exists.mp hy
      have htl := fun x hx => h x (List.mem_cons_of_mem p hx)
      simp [StorageCsv.writeRows, StorageCsv.writeRow, hrv, hyv, getOr,
        except_bind_ok, ih htl]

/-- The two fields the CSV representation keeps of a record. -/
def restrictRY (r : Record) : Record :=
  [("rating", (dget r "rating").getD (PyVal.vInt 0)),
   ("year", (dget r "year").getD (PyVal.vInt 0))]

theorem readRows_cons (t c1 c2 : String) (q : ℚ) (y : ℤ) (acc : Movies)
    (rest : List (List String))
    (h1 : parseFloatStr c1 = some q) (h2 : parseIntStr c2 = some y) :
    StorageCsv.readRows ["title", "rating", "year"] acc ([t, c1, c2] :: rest)
      = StorageCsv.readRows ["title", "rating", "year"]
          (dset acc t [("rating", .vFloat q), ("year", .vInt y)]) rest := by
  simp [StorageCsv.readRows, List.zip_cons_cons, dget, getOr, h1, h2,
    except_bind_ok]

theorem readRows_mapped (m : Movies)
    (hfields : ∀ p ∈ m,
      (∃ q : ℚ, dget p.2 "rating" = some (.vFloat q) ∧ (q.den : ℕ) ∣ 10 ^ fexp q) ∧
      (∃ y : ℤ, dget p.2 "year" = some (.vInt y))) :
    ∀ acc : Movies,
      StorageCsv.readRows ["title", "rating", "year"] acc
          (m.map (fun p =>
            [p.1, pyStr ((dget p.2 "rating").getD (PyVal.vInt 0)),
             pyStr ((dget p.2 "year").getD (PyVal.vInt 0))]))
        = .ok (m.foldl (fun a p => dset a p.1 (restrictRY p.2)) acc) := by
  induction m with
  | nil =>
      intro acc
      rfl
  | cons p tl ih =>
      intro acc
      obtain ⟨⟨q, hq, hqd⟩, ⟨y, hy⟩⟩ := hfields p (List.mem_cons_self p tl)
      have htl := fun x hx => hfields x (List.mem_cons_of_mem p hx)
      have hparse1 : parseFloatStr (pyStr ((dget p.2 "rating").getD (PyVal.vInt 0)))
          = some q := by
        rw [hq]
        simpa [pyStr, parseFloatStr_mk] using parseFloat?_floatToDec q hqd
      have hparse2 : parseIntStr (pyStr ((dget p.2 "year").getD (PyVal.vInt 0)))
          = some y := by
        rw [hy]
        simpa [pyStr, parseIntStr_mk] using parseInt?_intToDec y
      have hrestrict : restrictRY p.2
          = [("rating", PyVal.vFloat q), ("year", PyVal.vInt y)] := by
        simp [restrictRY, hq, hy]
      simp only [List.map_cons, List.foldl_cons]
      rw [readRows_cons _ _ _ q y acc _ hparse1 hparse2, ih htl, hrestrict]

/-- C10: CSV save-then-load keeps exactly the `rating` and `year` fields.
For every mapping with unique titles whose records all carry a float
`rating` (a decimal — every actual Python float is) and an int `year`,
`_write_movies` succeeds and `_read_movies` of the written file returns
the mapping with each record restricted to its original `rating` and
`year`; every other field (poster, imdbID, notes, ...) is dropped. -/
theorem C10_csv_save_load (m : Movies)
    (hnd : (m.map Prod.fst).Nodup)
    (hfields : ∀ p ∈ m,
      (∃ q : ℚ, dget p.2 "rating" = some (.vFloat q) ∧ (q.den : ℕ) ∣ 10 ^ fexp q) ∧
      (∃ y : ℤ, dget p.2 "year" = some (.vInt y))) :
    ∃ f', StorageCsv.write_movies m = .ok f' ∧
      StorageCsv.read_movies f' = .ok (m.map (fun p => (p.1, restrictRY p.2))) := by
  have hsome : ∀ p ∈ m, (dget p.2 "rating").isSome ∧ (dget p.2 "year").isSome := by
    intro p hp
    obtain ⟨⟨q, hq, _⟩, ⟨y, hy⟩⟩ := hfields p hp
    simp [hq, hy]
  refine ⟨.table ["title", "rating", "year"]
      (m.map (fun p =>
        [p.1, pyStr ((dget p.2 "rating").getD (PyVal.vInt 0)),
         pyStr ((dget p.2 "year").getD (PyVal.vInt 0))])), ?_, ?_⟩
  · simp [StorageCsv.write_movies, writeRows_ok m hsome, except_bind_ok]
  · show StorageCsv.readRows ["title", "rating", "year"] [] _ = _
    rw [readRows_mapped m hfields []]
    rw [foldl_dset_of_disjoint (fun p => restrictRY p.2) m [] hnd
      (fun p _ => rfl)]
    simp

/-- Witness for C10 at a concrete one-movie mapping whose record also has
poster and imdbID fields (they are dropped by the round trip). -/
theorem C10_csv_save_load_witness :
    ∃ f', StorageCsv.write_movies
        [("inception",
          [("rating", PyVal.vFloat ⟨44, 5, by decide, by decide⟩),
           ("year", PyVal.vInt 2010), ("poster", PyVal.vStr "u"),
           ("imdbID", PyVal.vStr "tt1375666")])] = .ok f' ∧
      StorageCsv.read_movies f'
        = .ok ([("inception",
            [("rating", PyVal.vFloat ⟨44, 5, by decide, by decide⟩),
             ("year", PyVal.vInt 2010), ("poster", PyVal.vStr "u"),
             ("imdbID", PyVal.vStr "tt1375666")])].map
            (fun p => (p.1, restrictRY p.2))) :=
  C10_csv_save_load _ (by decide)
    (by
      intro p hp
      simp only [List.mem_singleton] at hp
      subst hp
      exact ⟨⟨⟨44, 5, by decide, by decide⟩, rfl, by decide⟩, ⟨2010, rfl⟩⟩)

/-- Python `str.strip()`: whitespace removed from both ends.  (Python
strips the full Unicode whitespace set; `Char.isWhitespace` covers the
ASCII subset this program's input sees.) -/
def pyStrip (s : String) : String :=
  String.mk
    (((s.toList.dropWhile Char.isWhitespace).reverse.dropWhile Char.isWhitespace).reverse)

/-- Python `str.lower()`; ASCII case folding. -/
def pyLower (s : String) : String :=
  String.mk (s.toList.map Char.toLower)

/-- `normalize_movie_name` of `src/movie_app.py`:
`movie_name.strip().lower()`. -/
def normalize_movie_name (s : String) : String :=
  pyLower (pyStrip s)

namespace MovieApp

/-- The notes transformation of `MovieApp.update_movie`:
`notes = input(...).strip()` then `notes = notes[:100]` — surrounding
whitespace stripped, then the first 100 characters. -/
def clampNotes (raw : String) : String :=
  String.mk ((pyStrip raw).toList.take 100)

/-- `MovieApp.update_movie` of `src/movie_app.py`, as a function of the
two user inputs (the entered movie name and the entered notes):
`movies = storage.list_movies()`; the entered name is stripped and
normalized; when the normalized name is absent the flow prints a message
and returns without calling the store; otherwise the entered notes are
stripped, truncated to 100 characters, assigned into the fetched record
(`movie_details["notes"] = notes`), and `storage.update_movie` is called
with the whole mutated record.  Returns the (title, details) passed to
`storage.update_movie`, if any, and the resulting backing file. -/
def update_movie (f : JFile) (rawName rawNotes : String) :
    Option (String × Record) × JFile :=
  let movies := StorageJson.list_movies f
  let movie_name := pyStrip rawName
  let normalized_name := normalize_movie_name movie_name
  if dmem movies normalized_name then
    let notes := clampNotes rawNotes
    let movie_details :=
      dset ((dget movies normalized_name).getD []) "notes" (.vStr notes)
    (some (normalized_name, movie_details),
      (StorageJson.update_movie f normalized_name movie_details).2)
  else (none, f)

end MovieApp

/-- C8: whenever the presentation layer's update flow calls the store's
`update_movie` with a record `d`, the notes field of `d` is exactly the
entered notes string stripped of surrounding whitespace and truncated to
its first 100 characters — in particular its length is at most 100. -/
theorem C8_notes_stripped_truncated (f : JFile) (rawName s t : String) (d : Record)
    (h : (MovieApp.update_movie f rawName s).1 = some (t, d)) :
    dget d "notes" = some (.vStr (MovieApp.clampNotes s)) ∧
    MovieApp.clampNotes s = String.mk ((pyStrip s).toList.take 100) ∧
    (MovieApp.clampNotes s).length ≤ 100 := by
  by_cases hmem : dmem (StorageJson.list_movies f)
      (normalize_movie_name (pyStrip rawName))
  · have hd : d = dset ((dget (StorageJson.list_movies f)
        (normalize_movie_name (pyStrip rawName))).getD [])
          "notes" (.vStr (MovieApp.clampNotes s)) := by
      simp only [MovieApp.update_movie, hmem, if_true] at h
      exact (Prod.mk.injEq _ _ _ _ ▸ (Option.some.injEq _ _ ▸ h)).2.symm
    refine ⟨?_, rfl, ?_⟩
    · rw [hd]
      exact dget_dset_self _ _ _
    · show (String.mk ((pyStrip s).toList.take 100)).length ≤ 100
      have hlen : (String.mk ((pyStrip s).toList.take 100)).length
          = ((pyStrip s).toList.take 100).length := rfl
      rw [hlen, List.length_take]
      omega
  · exfalso
    simp [MovieApp.update_movie, hmem] at h

/-- Witness for C8: a store holding "m", entered name " M " and entered
notes " hi ". -/
theorem C8_notes_stripped_truncated_witness :
    ((MovieApp.update_movie (JFile.doc [("m", [("rating", PyVal.vInt 1)])])
        " M " " hi ").1
      = some ("m",
          dset [("rating", PyVal.vInt 1)] "notes"
            (.vStr (MovieApp.clampNotes " hi ")))) ∧
    (dget (dset [("rating", PyVal.vInt 1)] "notes"
          (.vStr (MovieApp.clampNotes " hi "))) "notes"
        = some (.vStr (MovieApp.clampNotes " hi ")) ∧
      MovieApp.clampNotes " hi " = String.mk ((pyStrip " hi ").toList.take 100) ∧
      (MovieApp.clampNotes " hi ").length ≤ 100) :=
  ⟨by decide,
   C8_notes_stripped_truncated (JFile.doc [("m", [("rating", PyVal.vInt 1)])])
     " M " " hi " "m" _ (by decide)⟩
